import Mathlib

/-
  Shallow embedding of mod_rednibblebill.c (FreeSWITCH redis nibble-billing module).

  Modelling conventions:
  - Timestamps (switch_time_t, microseconds) are Int.
  - Money (C double) is modelled as the rational numbers the algorithm manipulates;
    the claims under study are about the exact arithmetic of the algorithm.
  - External effects (redis debit outcome, balance reads, exec_app outcome, the
    clock read inside the nested pause call) are inputs to the embedded functions.
  - Side effects that the claims talk about (mutex lock/unlock, the redis debit,
    the low-balance action, the pause of billing, the reroute/transfer, the
    negative-elapsed warning) are recorded in an event trace, in program order.
-/

/-- Embeds rednibble_data_t (mod_rednibblebill.c lines 45-53): the per-session
billing state. lastts and pausets are microsecond timestamps; pausets equal to 0
means not paused. -/
structure RednibbleData where
  lastts : Int
  total : ℚ
  pausets : Int
  bill_adjustments : ℚ
  lowbal_action_executed : Bool
  deriving DecidableEq

/-- The session channel as the module sees it: the private billing data
(_rednibble_data_), the answer time (profile->times->answered), whether the
channel state is CS_REPORTING or CS_HANGUP (line 470), and the three channel
variables rednibble_rate (parsed by atof), rednibble_increment (parsed by atol;
none models a NULL or empty string, cf. switch_strlen_zero) and
rednibble_account. -/
structure Channel where
  rednibble_data : Option RednibbleData
  answered : Int
  state_terminal : Bool
  billrate : Option ℚ
  billincrement : Option Int
  billaccount : Option String
  deriving DecidableEq

/-- The effective global configuration consumed by do_billing: nobal_amt and
lowbal_amt after the per-channel overrides of lines 356-362 have been applied,
and the configured threshold actions. -/
structure GlobalsCfg where
  nobal_amt : ℚ
  lowbal_amt : ℚ
  nobal_action : String
  lowbal_action : String
  deriving DecidableEq

/-- External-world inputs consumed during one do_billing call: whether the redis
decrement of bill_event succeeds, the balance returned by get_balance in the
pre-answer branch (line 384) and in the post-charge branch (line 472), whether
exec_app of the low-balance action succeeds (line 479), and the value of
switch_micro_time_now read inside the nested rednibblebill_pause call
(line 549, a second clock read). -/
structure BillingInputs where
  debit_succeeds : Bool
  pre_balance : ℚ
  post_balance : ℚ
  lowbal_exec_succeeds : Bool
  pause_now : Int
  deriving DecidableEq

/-- Observable side effects of the embedded operations, recorded in program
order: global mutex lock/unlock, the redis debit issued by bill_event with the
amount passed to it, the low-balance action dispatch, the log line of a de-facto
pause inside rednibblebill_pause, the transfer_call reroute, and the
negative-elapsed warning of line 462. -/
inductive BEvent where
  | lock : BEvent
  | unlock : BEvent
  | debit : String → ℚ → BEvent
  | lowbalAction : BEvent
  | pauseBilling : BEvent
  | reroute : String → BEvent
  | warnNegative : BEvent
  deriving DecidableEq

/-- Embeds line 433: the charged units in microseconds for increment-mode
billing. du is ts - lastts (non-negative on the path where this runs), inc is
atol(billincrement). The condition divides du by 1000000 with C integer
division (du is non-negative here, so truncation and floor agree with Int
division); the else branch is ceil of the exact real quotient
du / (inc * 1000000.0), times inc * 1000000. -/
def chargedunits_us (du inc : Int) : Int :=
  if du / 1000000 ≤ inc then inc * 1000000
  else Int.ceil ((du : ℚ) / ((inc : ℚ) * 1000000)) * inc * 1000000

/-- Embeds lines 432-442: the charge computation of do_billing. Returns the
data record with lastts advanced and the billamount passed to bill_event.
Increment mode (billincrement set): billamount uses chargedunits_us and
lastts += chargedunits (lines 433-436). Continuous mode: billamount uses the
raw elapsed microseconds and lastts := ts (lines 439-441). -/
def do_billing_charge (billincrement : Option Int) (rate : ℚ) (d0 : RednibbleData)
    (ts : Int) : RednibbleData × ℚ :=
  match billincrement with
  | some inc =>
    let cu := chargedunits_us (ts - d0.lastts) inc
    ({ d0 with lastts := d0.lastts + cu },
      rate / 1000000 / 60 * (cu : ℚ) - d0.bill_adjustments)
  | none =>
    ({ d0 with lastts := ts },
      rate / 1000000 / 60 * ((ts - d0.lastts : Int) : ℚ) - d0.bill_adjustments)

/-- Embeds rednibblebill_pause (lines 546-579) from the point after the channel
null check: the mutex is locked (line 558); if the private data is NULL the
function logs and returns WITHOUT unlocking (lines 564-567), so the trace of
that path is just a lock; otherwise pausets is set to ts only if currently 0
(lines 570-571), the pause log line fires, and the mutex is unlocked. -/
def rednibblebill_pause_core (d0 : Option RednibbleData) (ts : Int) :
    Option RednibbleData × List BEvent :=
  match d0 with
  | none => (none, [BEvent.lock])
  | some d =>
    ((some (if d.pausets = 0 then { d with pausets := ts } else d)),
      [BEvent.lock, BEvent.pauseBilling, BEvent.unlock])

/-- Embeds rednibblebill_resume (lines 581-625) from the point after the channel
null check: the data-null and not-paused checks happen before the lock and
return with no events; otherwise, under the lock, bill_adjustments is increased
by (rate / 1000000 / 60) * (ts - pausets) (line 615) and pausets is cleared
(line 619). rate is atof of the rednibble_rate channel variable, read at
line 612. -/
def rednibblebill_resume_core (rate : ℚ) (d0 : Option RednibbleData) (ts : Int) :
    Option RednibbleData × List BEvent :=
  match d0 with
  | none => (none, [])
  | some d =>
    if d.pausets = 0 then (some d, [])
    else
      (some { d with
          bill_adjustments :=
            d.bill_adjustments + rate / 1000000 / 60 * ((ts - d.pausets : Int) : ℚ),
          pausets := 0 },
        [BEvent.lock, BEvent.unlock])

/-- Embeds rednibblebill_reset (lines 627-659) from the point after the channel
null check: no-op when uninitialized (check happens before the lock); otherwise,
under the lock, lastts := ts (line 651). -/
def rednibblebill_reset_core (d0 : Option RednibbleData) (ts : Int) :
    Option RednibbleData × List BEvent :=
  match d0 with
  | none => (none, [])
  | some d => (some { d with lastts := ts }, [BEvent.lock, BEvent.unlock])

/-- Embeds rednibblebill_check (lines 661-692) from the point after the channel
null check: returns -99999 when uninitialized; otherwise returns total under
the lock. -/
def rednibblebill_check_core (d0 : Option RednibbleData) : ℚ × List BEvent :=
  match d0 with
  | none => (-99999, [])
  | some d => (d.total, [BEvent.lock, BEvent.unlock])

/-- Embeds rednibblebill_adjust (lines 694-718): only the rednibble_account
variable is checked (line 708); when present, bill_event is called with the
NEGATED amount (line 713). The rednibble_rate variable is never read. -/
def rednibblebill_adjust (ch : Channel) (amount : ℚ) : List BEvent :=
  match ch.billaccount with
  | none => []
  | some acct => [BEvent.debit acct (-amount)]

/-- Embeds the integer delta computed by bill_event (line 264):
dec = ceil(billamount * 1000000). The C cast to int is exact whenever the
result lies in the 32-bit signed range. -/
def bill_event_dec (billamount : ℚ) : Int :=
  Int.ceil (billamount * 1000000)

/-- Embeds get_balance (lines 281-314). conn_ok models whether redis_factory
succeeds; on failure the C function executes return SWITCH_STATUS_FALSE from a
double-returning function, and SWITCH_STATUS_FALSE has the numeric value 1 in
the host switch_types.h enum, so the returned balance is 1.0. read_result
models credis_get: none is any non-zero result (including key not found), which
takes the FIXME fail-open branch returning 1.0 (line 303); some v is a
successful read of the stored integer counter, decoded as v / 1000000
(lines 305-306). -/
def get_balance (conn_ok : Bool) (read_result : Option Int) : ℚ :=
  if conn_ok = false then 1
  else
    match read_result with
    | none => 1
    | some v => (v : ℚ) / 1000000

/-- Embeds do_billing (lines 318-509) from the point where the global mutex has
been acquired and the private data fetched, with d0 the billing data (either
the existing record or the freshly zeroed record seeded with lastts = answered,
lines 415-422). Returns the new private data and the event trace of this locked
section, beginning with the lock event and ending with the unlock of line 502.
This definition is the post-charge section (lines 466-497): skipped when the
channel state is CS_REPORTING or CS_HANGUP; otherwise the low-balance check
(lines 475-483, firing the action when not yet executed and the balance is at
or below lowbal_amt, marking it executed only when exec_app succeeds) and the
no-balance check (lines 486-496), the latter calling rednibblebill_pause
(which re-enters the nested mutex) before transfer_call. -/
def do_billing_post (g : GlobalsCfg) (inp : BillingInputs) (ch : Channel)
    (d2 : RednibbleData) : Option RednibbleData × List BEvent :=
  if ch.state_terminal then (some d2, [])
  else
    let low : RednibbleData × List BEvent :=
      if d2.lowbal_action_executed = false ∧ inp.post_balance ≤ g.lowbal_amt then
        ((if inp.lowbal_exec_succeeds then { d2 with lowbal_action_executed := true }
          else d2), [BEvent.lowbalAction])
      else (d2, [])
    if inp.post_balance ≤ g.nobal_amt then
      let pz := rednibblebill_pause_core (some low.1) inp.pause_now
      (pz.1, low.2 ++ pz.2 ++ [BEvent.reroute g.nobal_action])
    else (some low.1, low.2)

/-- The charge section of do_billing under the lock (lines 430-463) followed by
the post-charge section: charge and debit when the elapsed time is
non-negative (debit outcome deciding whether total accumulates and the
adjustment resets, lines 448-459), else the continuous-mode-only warning of
lines 461-462; then the post section and finally the unlock of line 502. -/
def do_billing_locked (g : GlobalsCfg) (inp : BillingInputs) (ch : Channel) (ts : Int)
    (rate : ℚ) (acct : String) (d0 : RednibbleData) :
    Option RednibbleData × List BEvent :=
  let step : RednibbleData × List BEvent :=
    if 0 ≤ ts - d0.lastts then
      let cd := do_billing_charge ch.billincrement rate d0 ts
      if inp.debit_succeeds then
        ({ cd.1 with total := cd.1.total + cd.2, bill_adjustments := 0 },
          [BEvent.debit acct cd.2])
      else (cd.1, [BEvent.debit acct cd.2])
    else
      (d0, if ch.billincrement = none then [BEvent.warnNegative] else [])
  let post := do_billing_post g inp ch step.1
  (post.1, BEvent.lock :: step.2 ++ post.2 ++ [BEvent.unlock])

/-- Embeds do_billing (lines 318-509) as a transformer of the private billing
data plus an event trace. Early no-op paths: missing rednibble_rate or
rednibble_account (line 365). Pre-answer path (lines 380-395): no lock, a
pre-admission balance check that reroutes to nobal_action when the balance is
at or below nobal_amt, billing data untouched. Paused path (lines 406-412):
lock and immediate unlock, data untouched. Otherwise the locked charge and
post-charge sections run (do_billing_locked), seeding fresh data with
lastts = answered when uninitialized (line 420). -/
def do_billing_data (g : GlobalsCfg) (inp : BillingInputs) (ch : Channel) (ts : Int) :
    Option RednibbleData × List BEvent :=
  match ch.billrate, ch.billaccount with
  | none, _ => (ch.rednibble_data, [])
  | some _, none => (ch.rednibble_data, [])
  | some rate, some acct =>
    if ch.answered < 1 then
      if inp.pre_balance ≤ g.nobal_amt
      then (ch.rednibble_data, [BEvent.reroute g.nobal_action])
      else (ch.rednibble_data, [])
    else
      match ch.rednibble_data with
      | some d0 =>
        if 0 < d0.pausets then (some d0, [BEvent.lock, BEvent.unlock])
        else do_billing_locked g inp ch ts rate acct d0
      | none =>
        do_billing_locked g inp ch ts rate acct
          { lastts := ch.answered, total := 0, pausets := 0,
            bill_adjustments := 0, lowbal_action_executed := false }

/-- do_billing at the channel level: only the private billing data of the
channel changes (switch_channel_set_private, line 467); the channel variables,
answer time and lifecycle state are inputs the module does not write. -/
def do_billing (g : GlobalsCfg) (inp : BillingInputs) (ch : Channel) (ts : Int) :
    Channel × List BEvent :=
  let r := do_billing_data g inp ch ts
  ({ ch with rednibble_data := r.1 }, r.2)

/-- Net lock depth change recorded in a trace: lock events minus unlock
events. -/
def lockDelta (tr : List BEvent) : Int :=
  ((tr.filter fun e => e = BEvent.lock).length : Int)
    - ((tr.filter fun e => e = BEvent.unlock).length : Int)

/-- Number of debit calls (bill_event invocations) recorded in a trace. -/
def debitCount (tr : List BEvent) : Nat :=
  (tr.filter fun e => match e with | BEvent.debit _ _ => true | _ => false).length

/-- Modelled from the spec wording of claim C1 (spec 4.3 step 6, increment
mode), for refinement comparison only: with dt the elapsed time in (exact,
real-valued) seconds and inc the increment in seconds, charged seconds =
inc if dt ≤ inc, else ceil(dt / inc) * inc. -/
def specChargedSeconds (dt inc : ℚ) : ℚ :=
  if dt ≤ inc then inc else (Int.ceil (dt / inc) : ℚ) * inc

/-- The amended charged-seconds function that the code actually implements in
increment mode: the comparison truncates the elapsed time to whole seconds
(C integer division of the microsecond difference by 1000000) before comparing
with inc; the else branch is the exact ceiling. dtUs is the elapsed time in
microseconds. -/
def codeChargedSeconds (dtUs inc : Int) : ℚ :=
  if dtUs / 1000000 ≤ inc then (inc : ℚ)
  else (Int.ceil ((dtUs : ℚ) / ((inc : ℚ) * 1000000)) : ℚ) * inc

/-- Run a sequence of do_billing calls (each with its own external inputs and
clock reading) on a channel. -/
def runBillingSeq (g : GlobalsCfg) (calls : List (BillingInputs × Int)) (ch : Channel) :
    Channel :=
  calls.foldl (fun c p => (do_billing g p.1 c p.2).1) ch

/-- Total billed so far recorded in optional billing data (0 when
uninitialized). -/
def totalOf (d : Option RednibbleData) : ℚ :=
  match d with
  | none => 0
  | some x => x.total

/-- Pending adjustment recorded in optional billing data (0 when
uninitialized). -/
def adjOf (d : Option RednibbleData) : ℚ :=
  match d with
  | none => 0
  | some x => x.bill_adjustments

/- ===================== Helper lemmas ===================== -/

/-- The post-charge section never changes lastts, total or bill_adjustments,
and always yields an initialized record. -/
theorem do_billing_post_fields (g : GlobalsCfg) (inp : BillingInputs) (ch : Channel)
    (d2 : RednibbleData) :
    ∃ d3, (do_billing_post g inp ch d2).1 = some d3
      ∧ d3.lastts = d2.lastts ∧ d3.total = d2.total
      ∧ d3.bill_adjustments = d2.bill_adjustments := by
  by_cases hz : d2.pausets = 0 <;>
    (unfold do_billing_post rednibblebill_pause_core; split_ifs <;> simp_all)

/-- The post-charge section issues no debit and logs no negative-elapsed
warning. -/
theorem do_billing_post_trace (g : GlobalsCfg) (inp : BillingInputs) (ch : Channel)
    (d2 : RednibbleData) :
    debitCount (do_billing_post g inp ch d2).2 = 0
    ∧ BEvent.warnNegative ∉ (do_billing_post g inp ch d2).2 := by
  by_cases hz : d2.pausets = 0 <;>
    (unfold do_billing_post rednibblebill_pause_core; split_ifs <;> simp_all [debitCount])

/- ===================== Claim theorems ===================== -/

/-- C6: get_balance fails open: when the store connection cannot be
established it returns exactly 1, when the key read fails (including key not
found) it returns exactly 1, and on a successful read it returns the stored
integer divided by 1000000. -/
theorem c6_get_balance_fails_open :
    (∀ r : Option Int, get_balance false r = 1)
    ∧ get_balance true none = 1
    ∧ (∀ v : Int, get_balance true (some v) = (v : ℚ) / 1000000) :=
  ⟨fun _ => rfl, rfl, fun _ => rfl⟩

/-- C10: the integer delta sent to the store equals ceil(amount * 1000000),
and decoding it (as get_balance does on a successful read) yields a value at
least the original amount; the hypothesis confines the delta to the 32-bit
signed range in which the C cast to int is exact. -/
theorem c10_fixed_point_round_trip (a : ℚ)
    (h : -(2 ^ 31) ≤ bill_event_dec a ∧ bill_event_dec a ≤ 2 ^ 31 - 1) :
    bill_event_dec a = Int.ceil (a * 1000000)
      ∧ a ≤ get_balance true (some (bill_event_dec a)) := by
  refine ⟨rfl, ?_⟩
  have h1 : a * 1000000 ≤ ((bill_event_dec a : ℤ) : ℚ) := by
    simpa [bill_event_dec] using Int.le_ceil (a * 1000000)
  have h2 : (0 : ℚ) < 1000000 := by norm_num
  have h3 : a * 1000000 / 1000000 ≤ ((bill_event_dec a : ℤ) : ℚ) / 1000000 :=
    (div_le_div_iff_of_pos_right h2).mpr h1
  have h4 : a * 1000000 / 1000000 = a := by ring
  calc a = a * 1000000 / 1000000 := h4.symm
    _ ≤ ((bill_event_dec a : ℤ) : ℚ) / 1000000 := h3
    _ = get_balance true (some (bill_event_dec a)) := rfl

/-- Witness for C10 at the amount 1.0000005 from the spec: the encoded delta is
in range and the decoded value is at least the original amount. -/
theorem c10_witness :
    (-(2 ^ 31) ≤ bill_event_dec (2000001 / 2000000)
      ∧ bill_event_dec (2000001 / 2000000) ≤ 2 ^ 31 - 1)
    ∧ (2000001 / 2000000 : ℚ) ≤ get_balance true (some (bill_event_dec (2000001 / 2000000))) := by
  have hv : bill_event_dec (2000001 / 2000000) = 1000001 := by
    norm_num [bill_event_dec, Int.ceil_eq_iff]
  have hrange : -(2 ^ 31) ≤ bill_event_dec (2000001 / 2000000)
      ∧ bill_event_dec (2000001 / 2000000) ≤ 2 ^ 31 - 1 := by
    rw [hv]; constructor <;> norm_num
  exact ⟨hrange, (c10_fixed_point_round_trip (2000001 / 2000000) hrange).2⟩

/-- C9 (code bug): rednibblebill_pause invoked on a session whose billing data
is uninitialized acquires the global mutex and returns without releasing it:
the trace of the call is a single lock event and the net lock depth change is
one, not zero, refuting release-on-every-return-path. -/
theorem c9_pause_lock_leak :
    (rednibblebill_pause_core none 5).1 = none
    ∧ (rednibblebill_pause_core none 5).2 = [BEvent.lock]
    ∧ lockDelta (rednibblebill_pause_core none 5).2 = 1 :=
  ⟨rfl, rfl, by decide⟩

/-- C5 counterexample: on a channel whose billing-rate variable is absent but
whose account variable is present, rednibblebill_adjust still issues a store
debit, so it is not a silent no-op as the claim requires. -/
theorem c5_counterexample :
    rednibblebill_adjust
      { rednibble_data := none, answered := 0, state_terminal := false,
        billrate := none, billincrement := none, billaccount := some "acct" } 1
      = [BEvent.debit "acct" (-1)]
    ∧ [BEvent.debit "acct" (-1)] ≠ ([] : List BEvent) :=
  ⟨rfl, by simp⟩

/-- C5 amended: doBilling is a silent no-op when the rate or the account
variable is absent. adjust checks only the account variable: it is a silent
no-op when the account is absent, and it issues a store debit whenever the
account is present, even with the rate variable absent. The remaining
operations do not gate on the variables at all: pause and reset no-op on
uninitialized data (pause leaving the lock held, cf. the C9 bug) and otherwise
proceed regardless of the variables — pause sets pausets only when not already
paused, reset always sets lastts to now; resume no-ops on uninitialized or
unpaused data, and on its active (paused) path it reads the rate variable to
compute the pause credit; check never mutates billing state, returning total
when initialized and -99999 otherwise. -/
theorem c5_amended (g : GlobalsCfg) (inp : BillingInputs) (ch : Channel) (ts : Int)
    (rate : ℚ) (amount : ℚ) :
    (ch.billrate = none ∨ ch.billaccount = none →
        do_billing_data g inp ch ts = (ch.rednibble_data, []))
    ∧ (ch.billaccount = none → rednibblebill_adjust ch amount = [])
    ∧ (∀ acct, ch.billaccount = some acct →
        rednibblebill_adjust ch amount = [BEvent.debit acct (-amount)])
    ∧ (rednibblebill_pause_core none ts).1 = none
    ∧ (∀ d : RednibbleData, d.pausets = 0 →
        (rednibblebill_pause_core (some d) ts).1 = some { d with pausets := ts })
    ∧ (∀ d : RednibbleData, d.pausets ≠ 0 →
        (rednibblebill_pause_core (some d) ts).1 = some d)
    ∧ rednibblebill_resume_core rate none ts = (none, [])
    ∧ (∀ d : RednibbleData, d.pausets = 0 →
        rednibblebill_resume_core rate (some d) ts = (some d, []))
    ∧ (∀ d : RednibbleData, d.pausets ≠ 0 →
        rednibblebill_resume_core rate (some d) ts
          = (some { d with
              bill_adjustments := d.bill_adjustments
                + rate / 1000000 / 60 * ((ts - d.pausets : Int) : ℚ),
              pausets := 0 }, [BEvent.lock, BEvent.unlock]))
    ∧ rednibblebill_reset_core none ts = (none, [])
    ∧ (∀ d : RednibbleData,
        rednibblebill_reset_core (some d) ts
          = (some { d with lastts := ts }, [BEvent.lock, BEvent.unlock]))
    ∧ rednibblebill_check_core none = (-99999, [])
    ∧ (∀ d : RednibbleData,
        rednibblebill_check_core (some d)
          = (d.total, [BEvent.lock, BEvent.unlock])) := by
  refine ⟨?_, ?_, ?_, rfl, ?_, ?_, rfl, ?_, ?_, rfl, fun d => rfl, rfl, fun d => rfl⟩
  · intro h
    rcases h with h | h
    · simp [do_billing_data, h]
    · cases hr : ch.billrate <;> simp [do_billing_data, h, hr]
  · intro ha
    simp [rednibblebill_adjust, ha]
  · intro acct ha
    simp [rednibblebill_adjust, ha]
  · intro d hz
    simp [rednibblebill_pause_core, hz]
  · intro d hz
    simp [rednibblebill_pause_core, hz]
  · intro d hz
    simp [rednibblebill_resume_core, hz]
  · intro d hz
    simp [rednibblebill_resume_core, hz]

/-- Witness for C5 amended on a concrete channel with the rate variable absent
and the account present: doBilling is a no-op and adjust issues the debit. -/
theorem c5_witness :
    do_billing_data
        { nobal_amt := 0, lowbal_amt := 0, nobal_action := "hangup",
          lowbal_action := "play ding" }
        { debit_succeeds := true, pre_balance := 5, post_balance := 5,
          lowbal_exec_succeeds := true, pause_now := 1 }
        { rednibble_data := none, answered := 1, state_terminal := false,
          billrate := none, billincrement := none, billaccount := some "acct" } 7
      = (none, [])
    ∧ rednibblebill_adjust
        { rednibble_data := none, answered := 1, state_terminal := false,
          billrate := none, billincrement := none, billaccount := some "acct" } 3
      = [BEvent.debit "acct" (-3)] := by
  refine ⟨?_, ?_⟩
  · exact (c5_amended _ _ _ 7 0 0).1 (Or.inl rfl)
  · exact (c5_amended
      { nobal_amt := 0, lowbal_amt := 0, nobal_action := "hangup",
        lowbal_action := "play ding" }
      { debit_succeeds := true, pre_balance := 5, post_balance := 5,
        lowbal_exec_succeeds := true, pause_now := 1 }
      _ 7 0 3).2.2.1 "acct" rfl

/-- The charge computation only moves lastts: total, bill_adjustments, pausets
and the low-balance flag pass through unchanged. -/
theorem do_billing_charge_fields (bi : Option Int) (rate : ℚ) (d0 : RednibbleData)
    (ts : Int) :
    (do_billing_charge bi rate d0 ts).1.total = d0.total
    ∧ (do_billing_charge bi rate d0 ts).1.bill_adjustments = d0.bill_adjustments
    ∧ (do_billing_charge bi rate d0 ts).1.pausets = d0.pausets
    ∧ (do_billing_charge bi rate d0 ts).1.lowbal_action_executed
        = d0.lowbal_action_executed := by
  cases bi <;> exact ⟨rfl, rfl, rfl, rfl⟩

/-- On a configured, answered, initialized, unpaused session, do_billing is the
locked section. -/
theorem do_billing_data_eq_locked (g : GlobalsCfg) (inp : BillingInputs) (ch : Channel)
    (ts : Int) (rate : ℚ) (acct : String) (d0 : RednibbleData)
    (hr : ch.billrate = some rate) (ha : ch.billaccount = some acct)
    (hans : ¬ ch.answered < 1) (hd : ch.rednibble_data = some d0)
    (hp0 : d0.pausets = 0) :
    do_billing_data g inp ch ts = do_billing_locked g inp ch ts rate acct d0 := by
  unfold do_billing_data
  rw [hr, ha, hd]
  simp [hans, hp0]

/-- Non-negative elapsed time: the resulting data is the post-processing of the
charge-and-debit step; lastts is the advanced value of the charge computation
regardless of the debit outcome, total accumulates and the adjustment resets
exactly when the debit succeeds, and exactly one debit is issued. -/
theorem do_billing_locked_pos (g : GlobalsCfg) (inp : BillingInputs) (ch : Channel)
    (ts : Int) (rate : ℚ) (acct : String) (d0 : RednibbleData)
    (hdt : 0 ≤ ts - d0.lastts) :
    (∃ d1, (do_billing_locked g inp ch ts rate acct d0).1 = some d1
      ∧ d1.lastts = (do_billing_charge ch.billincrement rate d0 ts).1.lastts
      ∧ d1.total = (if inp.debit_succeeds = true then
            d0.total + (do_billing_charge ch.billincrement rate d0 ts).2 else d0.total)
      ∧ d1.bill_adjustments = (if inp.debit_succeeds = true then 0
            else d0.bill_adjustments))
    ∧ debitCount (do_billing_locked g inp ch ts rate acct d0).2 = 1 := by
  have hch := do_billing_charge_fields ch.billincrement rate d0 ts
  unfold do_billing_locked
  rw [if_pos hdt]
  cases hs : inp.debit_succeeds
  · obtain ⟨d3, h1, h2, h3, h4⟩ := do_billing_post_fields g inp ch
      (do_billing_charge ch.billincrement rate d0 ts).1
    have h5 := (do_billing_post_trace g inp ch
      (do_billing_charge ch.billincrement rate d0 ts).1).1
    constructor
    · exact ⟨d3, by simpa using h1, h2, by simp [h3, hch.1], by simp [h4, hch.2.1]⟩
    · simp only [debitCount] at h5 ⊢
      simp [List.filter_append, h5]
  · obtain ⟨d3, h1, h2, h3, h4⟩ := do_billing_post_fields g inp ch
      { (do_billing_charge ch.billincrement rate d0 ts).1 with
          total := (do_billing_charge ch.billincrement rate d0 ts).1.total
            + (do_billing_charge ch.billincrement rate d0 ts).2,
          bill_adjustments := 0 }
    have h5 := (do_billing_post_trace g inp ch
      { (do_billing_charge ch.billincrement rate d0 ts).1 with
          total := (do_billing_charge ch.billincrement rate d0 ts).1.total
            + (do_billing_charge ch.billincrement rate d0 ts).2,
          bill_adjustments := 0 }).1
    constructor
    · exact ⟨d3, by simpa using h1, h2, by simp [h3, hch.1], by simp [h4]⟩
    · simp only [debitCount] at h5 ⊢
      simp [List.filter_append, h5]

/-- Negative elapsed time: the charge fields are untouched, no debit is
issued, and the warning is logged exactly in continuous mode. -/
theorem do_billing_locked_neg (g : GlobalsCfg) (inp : BillingInputs) (ch : Channel)
    (ts : Int) (rate : ℚ) (acct : String) (d0 : RednibbleData)
    (hneg : ts - d0.lastts < 0) :
    (∃ d1, (do_billing_locked g inp ch ts rate acct d0).1 = some d1
      ∧ d1.lastts = d0.lastts ∧ d1.total = d0.total
      ∧ d1.bill_adjustments = d0.bill_adjustments)
    ∧ debitCount (do_billing_locked g inp ch ts rate acct d0).2 = 0
    ∧ (BEvent.warnNegative ∈ (do_billing_locked g inp ch ts rate acct d0).2
        ↔ ch.billincrement = none) := by
  unfold do_billing_locked
  rw [if_neg (not_le.mpr hneg)]
  obtain ⟨d3, h1, h2, h3, h4⟩ := do_billing_post_fields g inp ch d0
  obtain ⟨h5, h6⟩ := do_billing_post_trace g inp ch d0
  refine ⟨⟨d3, by simpa using h1, h2, h3, h4⟩, ?_, ?_⟩
  · simp only [debitCount] at h5 ⊢
    cases hbi : ch.billincrement <;> simp [List.filter_append, hbi, h5]
  · cases hbi : ch.billincrement <;> simp [hbi, h6]

/-- C2: when the store debit fails, nothing is rolled back: lastts keeps the
advanced value computed by the charge step before the debit (so the elapsed
window is consumed and a later call starts from the advanced timestamp), and
exactly one debit is attempted (no retry); total accumulates the charge and
the pending adjustment resets to zero exactly when the debit succeeds. -/
theorem c2_no_rollback_on_debit_failure (g : GlobalsCfg) (inp : BillingInputs)
    (ch : Channel) (ts : Int) (rate : ℚ) (acct : String) (d0 : RednibbleData)
    (hr : ch.billrate = some rate) (ha : ch.billaccount = some acct)
    (hans : ¬ ch.answered < 1) (hd : ch.rednibble_data = some d0)
    (hp0 : d0.pausets = 0) (hdt : 0 ≤ ts - d0.lastts) :
    ∃ d1, (do_billing_data g inp ch ts).1 = some d1
      ∧ d1.lastts = (do_billing_charge ch.billincrement rate d0 ts).1.lastts
      ∧ (inp.debit_succeeds = false →
          d1.total = d0.total ∧ d1.bill_adjustments = d0.bill_adjustments)
      ∧ (inp.debit_succeeds = true →
          d1.total = d0.total + (do_billing_charge ch.billincrement rate d0 ts).2
            ∧ d1.bill_adjustments = 0)
      ∧ debitCount (do_billing_data g inp ch ts).2 = 1 := by
  rw [do_billing_data_eq_locked g inp ch ts rate acct d0 hr ha hans hd hp0]
  obtain ⟨⟨d1, h1, h2, h3, h4⟩, h5⟩ :=
    do_billing_locked_pos g inp ch ts rate acct d0 hdt
  refine ⟨d1, h1, h2, ?_, ?_, h5⟩
  · intro hs
    rw [hs] at h3 h4
    simp only [Bool.false_eq_true, if_false] at h3 h4
    exact ⟨h3, h4⟩
  · intro hs
    rw [hs] at h3 h4
    simp only [if_true] at h3 h4
    exact ⟨h3, h4⟩

/-- Witness for C2 on a concrete continuous-mode call with a failing debit:
lastts advances to now, total and the adjustment are untouched, one debit was
attempted. -/
theorem c2_witness :
    ∃ d1,
      (do_billing_data
          { nobal_amt := 0, lowbal_amt := 0, nobal_action := "hangup",
            lowbal_action := "play ding" }
          { debit_succeeds := false, pre_balance := 5, post_balance := 5,
            lowbal_exec_succeeds := true, pause_now := 9 }
          { rednibble_data := some ⟨1, 0, 0, 0, false⟩, answered := 1,
            state_terminal := true, billrate := some 60, billincrement := none,
            billaccount := some "a" } 3).1 = some d1
      ∧ d1.lastts = (do_billing_charge none 60 ⟨1, 0, 0, 0, false⟩ 3).1.lastts
      ∧ (false = false →
          d1.total = (⟨1, 0, 0, 0, false⟩ : RednibbleData).total
            ∧ d1.bill_adjustments = (⟨1, 0, 0, 0, false⟩ : RednibbleData).bill_adjustments)
      ∧ (false = true →
          d1.total = (⟨1, 0, 0, 0, false⟩ : RednibbleData).total
              + (do_billing_charge none 60 ⟨1, 0, 0, 0, false⟩ 3).2
            ∧ d1.bill_adjustments = 0)
      ∧ debitCount
          (do_billing_data
            { nobal_amt := 0, lowbal_amt := 0, nobal_action := "hangup",
              lowbal_action := "play ding" }
            { debit_succeeds := false, pre_balance := 5, post_balance := 5,
              lowbal_exec_succeeds := true, pause_now := 9 }
            { rednibble_data := some ⟨1, 0, 0, 0, false⟩, answered := 1,
              state_terminal := true, billrate := some 60, billincrement := none,
              billaccount := some "a" } 3).2 = 1 :=
  c2_no_rollback_on_debit_failure _ _ _ 3 60 "a" ⟨1, 0, 0, 0, false⟩
    rfl rfl (by decide) rfl rfl (by decide)

/-- C7 counterexample: a concrete increment-mode call with now earlier than
lastts on a session whose post-charge balance is at or below the no-balance
threshold: the billing state IS changed by the call (pausets is set by the
no-balance pause) and no warning is logged, refuting the claim that the state
is unchanged and a warning is logged. -/
theorem c7_counterexample :
    (do_billing_data
        { nobal_amt := 0, lowbal_amt := -1, nobal_action := "hangup",
          lowbal_action := "play ding" }
        { debit_succeeds := true, pre_balance := 1, post_balance := 0,
          lowbal_exec_succeeds := true, pause_now := 7 }
        { rednibble_data := some ⟨100, 3, 0, 0, false⟩, answered := 1,
          state_terminal := false, billrate := some 60, billincrement := some 60,
          billaccount := some "a" } 50).1
      = some ⟨100, 3, 7, 0, false⟩
    ∧ some (⟨100, 3, 7, 0, false⟩ : RednibbleData)
        ≠ some (⟨100, 3, 0, 0, false⟩ : RednibbleData)
    ∧ BEvent.warnNegative ∉
        (do_billing_data
          { nobal_amt := 0, lowbal_amt := -1, nobal_action := "hangup",
            lowbal_action := "play ding" }
          { debit_succeeds := true, pre_balance := 1, post_balance := 0,
            lowbal_exec_succeeds := true, pause_now := 7 }
          { rednibble_data := some ⟨100, 3, 0, 0, false⟩, answered := 1,
            state_terminal := false, billrate := some 60, billincrement := some 60,
            billaccount := some "a" } 50).2 := by
  refine ⟨?_, by simp, ?_⟩ <;>
    norm_num [do_billing_data, do_billing_locked, do_billing_post,
      rednibblebill_pause_core, do_billing_charge, chargedunits_us] <;>
    decide

/-- C7 amended: if now is earlier than lastts on an answered, non-paused,
configured session, then no debit is issued, the charge fields (lastts, total,
bill_adjustments) are unchanged, and the warning is logged only in continuous
mode (not in increment mode); the post-charge balance checks still run and may
set the low-balance flag or pause the session. -/
theorem c7_negative_elapsed_guard (g : GlobalsCfg) (inp : BillingInputs)
    (ch : Channel) (ts : Int) (rate : ℚ) (acct : String) (d0 : RednibbleData)
    (hr : ch.billrate = some rate) (ha : ch.billaccount = some acct)
    (hans : ¬ ch.answered < 1) (hd : ch.rednibble_data = some d0)
    (hp0 : d0.pausets = 0) (hneg : ts - d0.lastts < 0) :
    debitCount (do_billing_data g inp ch ts).2 = 0
    ∧ (∃ d1, (do_billing_data g inp ch ts).1 = some d1
        ∧ d1.lastts = d0.lastts ∧ d1.total = d0.total
        ∧ d1.bill_adjustments = d0.bill_adjustments)
    ∧ (BEvent.warnNegative ∈ (do_billing_data g inp ch ts).2
        ↔ ch.billincrement = none) := by
  rw [do_billing_data_eq_locked g inp ch ts rate acct d0 hr ha hans hd hp0]
  obtain ⟨h1, h2, h3⟩ := do_billing_locked_neg g inp ch ts rate acct d0 hneg
  exact ⟨h2, h1, h3⟩

/-- Witness for C7 amended on a concrete continuous-mode call with now earlier
than lastts: no debit, charge fields preserved, and the warning fires (the
increment variable is unset). -/
theorem c7_witness :
    debitCount
      (do_billing_data
        { nobal_amt := 0, lowbal_amt := 0, nobal_action := "hangup",
          lowbal_action := "play ding" }
        { debit_succeeds := true, pre_balance := 5, post_balance := 5,
          lowbal_exec_succeeds := true, pause_now := 9 }
        { rednibble_data := some ⟨100, 3, 0, 0, false⟩, answered := 1,
          state_terminal := true, billrate := some 60, billincrement := none,
          billaccount := some "a" } 50).2 = 0 :=
  (c7_negative_elapsed_guard _ _ _ 50 60 "a" ⟨100, 3, 0, 0, false⟩
    rfl rfl (by decide) rfl rfl (by decide)).1

/-- In a non-terminal state with the balance at or below the no-balance
threshold and an unpaused record, the post section traces the nested pause
(lock, pause, unlock) immediately followed by the reroute, preceded at most by
the low-balance action, and the resulting record carries the pause
timestamp. -/
theorem do_billing_post_nobal (g : GlobalsCfg) (inp : BillingInputs) (ch : Channel)
    (d2 : RednibbleData) (hterm : ch.state_terminal = false)
    (hbal : inp.post_balance ≤ g.nobal_amt) (hz : d2.pausets = 0) :
    ∃ l0 d4, do_billing_post g inp ch d2
        = (some d4, l0 ++ [BEvent.lock, BEvent.pauseBilling, BEvent.unlock,
            BEvent.reroute g.nobal_action])
      ∧ (l0 = [] ∨ l0 = [BEvent.lowbalAction])
      ∧ d4.pausets = inp.pause_now := by
  unfold do_billing_post rednibblebill_pause_core
  rw [hterm]
  by_cases c1 : d2.lowbal_action_executed = false ∧ inp.post_balance ≤ g.lowbal_amt
  · by_cases c2 : inp.lowbal_exec_succeeds = true
    · refine ⟨[BEvent.lowbalAction],
        { d2 with lowbal_action_executed := true, pausets := inp.pause_now },
        ?_, Or.inr rfl, rfl⟩
      simp [c1, c2, hbal, hz]
    · refine ⟨[BEvent.lowbalAction], { d2 with pausets := inp.pause_now },
        ?_, Or.inr rfl, rfl⟩
      simp [c1, c2, hbal, hz]
  · refine ⟨[], { d2 with pausets := inp.pause_now }, ?_, Or.inl rfl, rfl⟩
    simp [c1, hbal, hz]

/-- The locked section is lock, then the charge-step events (never a reroute),
then the post section, then the final unlock; the charge step preserves
pausets. -/
theorem do_billing_locked_shape (g : GlobalsCfg) (inp : BillingInputs) (ch : Channel)
    (ts : Int) (rate : ℚ) (acct : String) (d0 : RednibbleData) :
    ∃ st : RednibbleData × List BEvent,
      do_billing_locked g inp ch ts rate acct d0
        = ((do_billing_post g inp ch st.1).1,
            BEvent.lock :: st.2 ++ (do_billing_post g inp ch st.1).2 ++ [BEvent.unlock])
      ∧ st.1.pausets = d0.pausets
      ∧ ∀ s, BEvent.reroute s ∉ st.2 := by
  have hch := do_billing_charge_fields ch.billincrement rate d0 ts
  unfold do_billing_locked
  refine ⟨_, rfl, ?_, ?_⟩
  · by_cases hdt : 0 ≤ ts - d0.lastts
    · rw [if_pos hdt]
      by_cases hs : inp.debit_succeeds = true <;> simp [hs, hch.2.2.1]
    · rw [if_neg hdt]
  · by_cases hdt : 0 ≤ ts - d0.lastts
    · rw [if_pos hdt]
      intro s
      by_cases hs : inp.debit_succeeds = true <;> simp [hs]
    · rw [if_neg hdt]
      intro s
      by_cases hbi : ch.billincrement = none <;> simp [hbi]

/-- C8: on an answered, configured, unpaused, non-terminal session whose
post-charge balance is at or below the no-balance threshold, do_billing pauses
billing (pausets is set to the nested clock reading, non-zero when the clock is
positive) strictly before the reroute: the trace ends with the nested pause
followed immediately by the reroute and the final unlock, and no reroute occurs
earlier in the trace. -/
theorem c8_pause_before_reroute (g : GlobalsCfg) (inp : BillingInputs) (ch : Channel)
    (ts : Int) (rate : ℚ) (acct : String) (d0 : RednibbleData)
    (hr : ch.billrate = some rate) (ha : ch.billaccount = some acct)
    (hans : ¬ ch.answered < 1) (hd : ch.rednibble_data = some d0)
    (hp0 : d0.pausets = 0) (hterm : ch.state_terminal = false)
    (hbal : inp.post_balance ≤ g.nobal_amt) (hpz : 0 < inp.pause_now) :
    (∃ d4, (do_billing_data g inp ch ts).1 = some d4
      ∧ d4.pausets = inp.pause_now ∧ d4.pausets ≠ 0)
    ∧ ∃ l1, (do_billing_data g inp ch ts).2
        = l1 ++ [BEvent.lock, BEvent.pauseBilling, BEvent.unlock,
                 BEvent.reroute g.nobal_action, BEvent.unlock]
      ∧ BEvent.reroute g.nobal_action ∉ l1 := by
  rw [do_billing_data_eq_locked g inp ch ts rate acct d0 hr ha hans hd hp0]
  obtain ⟨st, heq, hsp, hnr⟩ := do_billing_locked_shape g inp ch ts rate acct d0
  rw [heq]
  obtain ⟨l0, d4, hpost, hl0, hd4⟩ :=
    do_billing_post_nobal g inp ch st.1 hterm hbal (hsp.trans hp0)
  rw [hpost]
  constructor
  · exact ⟨d4, rfl, hd4, by rw [hd4]; exact hpz.ne'⟩
  · refine ⟨BEvent.lock :: st.2 ++ l0, ?_, ?_⟩
    · simp [List.append_assoc]
    · rcases hl0 with h | h <;> subst h <;> simp [hnr]

/-- Witness for C8 on a concrete call where the post-charge balance equals the
no-balance threshold: the session is paused (with the nested clock value 7)
before the reroute. -/
theorem c8_witness :
    ∃ d4,
      (do_billing_data
        { nobal_amt := 0, lowbal_amt := -5, nobal_action := "hangup",
          lowbal_action := "play ding" }
        { debit_succeeds := true, pre_balance := 1, post_balance := 0,
          lowbal_exec_succeeds := true, pause_now := 7 }
        { rednibble_data := some ⟨0, 0, 0, 0, false⟩, answered := 1,
          state_terminal := false, billrate := some 60, billincrement := none,
          billaccount := some "a" } 2).1 = some d4
      ∧ d4.pausets = 7 ∧ d4.pausets ≠ 0 :=
  (c8_pause_before_reroute _ _ _ 2 60 "a" ⟨0, 0, 0, 0, false⟩
    rfl rfl (by decide) rfl rfl rfl (le_refl 0) (by decide)).1

/-- The increment-mode charged units are non-negative for non-negative elapsed
time and a positive increment. -/
theorem chargedunits_us_nonneg (du inc : Int) (hdu : 0 ≤ du) (hinc : 0 < inc) :
    0 ≤ chargedunits_us du inc := by
  unfold chargedunits_us
  split_ifs with h
  · exact mul_nonneg hinc.le (by norm_num)
  · have h1 : (0 : ℚ) ≤ (du : ℚ) / ((inc : ℚ) * 1000000) := by
      apply div_nonneg
      · exact_mod_cast hdu
      · have : (0 : ℚ) ≤ (inc : ℚ) := by exact_mod_cast hinc.le
        nlinarith
    have h2 : 0 ≤ Int.ceil ((du : ℚ) / ((inc : ℚ) * 1000000)) := Int.ceil_nonneg h1
    exact mul_nonneg (mul_nonneg h2 hinc.le) (by norm_num)

/-- The charged units in microseconds, divided by one million, are exactly the
charged seconds that the code computes: inc when the truncated elapsed whole
seconds are at most inc, else the exact ceiling of elapsed seconds over inc,
times inc. -/
theorem chargedunits_us_div (du inc : Int) :
    ((chargedunits_us du inc : Int) : ℚ) / 1000000 = codeChargedSeconds du inc := by
  unfold chargedunits_us codeChargedSeconds
  split_ifs <;> push_cast <;> ring

/-- On the non-negative-elapsed path, the locked trace starts with the lock
followed immediately by the single debit carrying the computed billamount. -/
theorem do_billing_locked_trace_head (g : GlobalsCfg) (inp : BillingInputs)
    (ch : Channel) (ts : Int) (rate : ℚ) (acct : String) (d0 : RednibbleData)
    (hdt : 0 ≤ ts - d0.lastts) :
    ∃ rest, (do_billing_locked g inp ch ts rate acct d0).2
      = BEvent.lock :: BEvent.debit acct
          (do_billing_charge ch.billincrement rate d0 ts).2 :: rest := by
  unfold do_billing_locked
  rw [if_pos hdt]
  by_cases hs : inp.debit_succeeds = true
  · rw [if_pos hs]
    exact ⟨_, rfl⟩
  · rw [if_neg hs]
    exact ⟨_, rfl⟩

/-- C1 amended: for a doBilling call on an answered, configured, non-paused
session with non-negative elapsed time, the amount passed to the store debit
is (rate / 60) * chargedSeconds - pendingAdjustment in both modes, where in
increment mode chargedSeconds is inc when the elapsed WHOLE seconds (the
microsecond difference divided by 1000000 with truncation) are at most inc and
ceil(exact elapsed seconds / inc) * inc otherwise, and lastts advances by
exactly the charged units; in continuous mode chargedSeconds is exactly the
elapsed time and lastts is set to now. -/
theorem c1_charge_computation (g : GlobalsCfg) (inp : BillingInputs) (ch : Channel)
    (ts : Int) (rate : ℚ) (acct : String) (d0 : RednibbleData)
    (hr : ch.billrate = some rate) (ha : ch.billaccount = some acct)
    (hans : ¬ ch.answered < 1) (hd : ch.rednibble_data = some d0)
    (hp0 : d0.pausets = 0) (hdt : 0 ≤ ts - d0.lastts) :
    ∃ d1 rest,
      (do_billing_data g inp ch ts).1 = some d1
      ∧ (∀ inc, ch.billincrement = some inc →
          (do_billing_data g inp ch ts).2
            = BEvent.lock :: BEvent.debit acct
                (rate / 60 * codeChargedSeconds (ts - d0.lastts) inc
                  - d0.bill_adjustments) :: rest
          ∧ ((d1.lastts - d0.lastts : Int) : ℚ)
              = 1000000 * codeChargedSeconds (ts - d0.lastts) inc)
      ∧ (ch.billincrement = none →
          (do_billing_data g inp ch ts).2
            = BEvent.lock :: BEvent.debit acct
                (rate / 60 * (((ts - d0.lastts : Int) : ℚ) / 1000000)
                  - d0.bill_adjustments) :: rest
          ∧ d1.lastts = ts) := by
  rw [do_billing_data_eq_locked g inp ch ts rate acct d0 hr ha hans hd hp0]
  obtain ⟨⟨d1, h1, h2, _, _⟩, _⟩ := do_billing_locked_pos g inp ch ts rate acct d0 hdt
  obtain ⟨rest, htr⟩ := do_billing_locked_trace_head g inp ch ts rate acct d0 hdt
  refine ⟨d1, rest, h1, ?_, ?_⟩
  · intro inc hbi
    have hamt : (do_billing_charge ch.billincrement rate d0 ts).2
        = rate / 60 * codeChargedSeconds (ts - d0.lastts) inc - d0.bill_adjustments := by
      rw [hbi]
      show rate / 1000000 / 60 * ((chargedunits_us (ts - d0.lastts) inc : Int) : ℚ)
          - d0.bill_adjustments = _
      rw [← chargedunits_us_div]
      ring
    constructor
    · rw [htr, hamt]
    · have hlast : d1.lastts = d0.lastts + chargedunits_us (ts - d0.lastts) inc := by
        rw [h2, hbi]; rfl
      rw [hlast, ← chargedunits_us_div]
      push_cast
      ring
  · intro hbi
    have hamt : (do_billing_charge ch.billincrement rate d0 ts).2
        = rate / 60 * (((ts - d0.lastts : Int) : ℚ) / 1000000) - d0.bill_adjustments := by
      rw [hbi]
      show rate / 1000000 / 60 * ((ts - d0.lastts : Int) : ℚ)
          - d0.bill_adjustments = _
      ring
    refine ⟨by rw [htr, hamt], ?_⟩
    rw [h2, hbi]; rfl

/-- C1 counterexample: increment mode with inc = 60 s and elapsed time 60.5 s
(60500000 microseconds): the code compares the TRUNCATED whole seconds
(60 ≤ 60) and charges one block of 60 s, amount 60 at rate 60/min, while the
claimed formula (Δt ≤ inc fails at 60.5 > 60, so ceil(60.5/60)*60 = 120 s)
gives amount 120. -/
theorem c1_counterexample :
    (do_billing_data
        { nobal_amt := 0, lowbal_amt := 0, nobal_action := "hangup",
          lowbal_action := "play ding" }
        { debit_succeeds := true, pre_balance := 5, post_balance := 5,
          lowbal_exec_succeeds := true, pause_now := 9 }
        { rednibble_data := some ⟨0, 0, 0, 0, false⟩, answered := 1,
          state_terminal := true, billrate := some 60, billincrement := some 60,
          billaccount := some "a" } 60500000).2
      = [BEvent.lock, BEvent.debit "a" 60, BEvent.unlock]
    ∧ (60 : ℚ) / 60 * specChargedSeconds ((60500000 : ℚ) / 1000000) 60 - 0 = 120
    ∧ (60 : ℚ) ≠ 120 := by
  have hceil : Int.ceil (((60500000 : ℚ) / 1000000) / 60) = 2 := by
    norm_num [Int.ceil_eq_iff]
  refine ⟨?_, ?_, by norm_num⟩
  · norm_num [do_billing_data, do_billing_locked, do_billing_post,
      do_billing_charge, chargedunits_us]
  · rw [specChargedSeconds, if_neg (by norm_num), hceil]
    norm_num

/-- Witness for C1 amended on a concrete continuous-mode call: the debit amount
and lastts are as characterized. -/
theorem c1_witness :
    ∃ d1 rest,
      (do_billing_data
          { nobal_amt := 0, lowbal_amt := 0, nobal_action := "hangup",
            lowbal_action := "play ding" }
          { debit_succeeds := false, pre_balance := 5, post_balance := 5,
            lowbal_exec_succeeds := true, pause_now := 9 }
          { rednibble_data := some ⟨1, 0, 0, 0, false⟩, answered := 1,
            state_terminal := true, billrate := some 60, billincrement := none,
            billaccount := some "a" } 3).1 = some d1
      ∧ (∀ inc, (none : Option Int) = some inc →
          (do_billing_data
            { nobal_amt := 0, lowbal_amt := 0, nobal_action := "hangup",
              lowbal_action := "play ding" }
            { debit_succeeds := false, pre_balance := 5, post_balance := 5,
              lowbal_exec_succeeds := true, pause_now := 9 }
            { rednibble_data := some ⟨1, 0, 0, 0, false⟩, answered := 1,
              state_terminal := true, billrate := some 60, billincrement := none,
              billaccount := some "a" } 3).2
            = BEvent.lock :: BEvent.debit "a"
                (60 / 60 * codeChargedSeconds (3 - 1) inc - 0) :: rest
          ∧ ((d1.lastts - 1 : Int) : ℚ) = 1000000 * codeChargedSeconds (3 - 1) inc)
      ∧ ((none : Option Int) = none →
          (do_billing_data
            { nobal_amt := 0, lowbal_amt := 0, nobal_action := "hangup",
              lowbal_action := "play ding" }
            { debit_succeeds := false, pre_balance := 5, post_balance := 5,
              lowbal_exec_succeeds := true, pause_now := 9 }
            { rednibble_data := some ⟨1, 0, 0, 0, false⟩, answered := 1,
              state_terminal := true, billrate := some 60, billincrement := none,
              billaccount := some "a" } 3).2
            = BEvent.lock :: BEvent.debit "a"
                (60 / 60 * (((3 - 1 : Int) : ℚ) / 1000000) - 0) :: rest
          ∧ d1.lastts = 3) :=
  c1_charge_computation _ _ _ 3 60 "a" ⟨1, 0, 0, 0, false⟩
    rfl rfl (by decide) rfl rfl (by decide)

/-- The charge step never moves lastts backward when the elapsed time is
non-negative and any configured increment is positive. -/
theorem do_billing_charge_lastts_mono (bi : Option Int) (rate : ℚ) (d0 : RednibbleData)
    (ts : Int) (hdt : 0 ≤ ts - d0.lastts) (hinc : ∀ i, bi = some i → 0 < i) :
    d0.lastts ≤ (do_billing_charge bi rate d0 ts).1.lastts := by
  cases bi with
  | none =>
    show d0.lastts ≤ ts
    omega
  | some i =>
    have hcu := chargedunits_us_nonneg (ts - d0.lastts) i hdt (hinc i rfl)
    show d0.lastts ≤ d0.lastts + chargedunits_us (ts - d0.lastts) i
    omega


/-- C4 amended: lastts never decreases under doBilling (in either mode, for a
positive configured increment, with no assumption on the clock), and pause and
resume leave it unchanged (check and adjust never write the record at all);
reset, however, sets lastts to the current clock reading, which can be EARLIER
than a lastts that increment-mode billing has advanced past now. -/
theorem c4_lastts_monotone_except_reset (g : GlobalsCfg) (inp : BillingInputs)
    (ch : Channel) (ts : Int) (rate : ℚ) (d0 : RednibbleData)
    (hinc : ∀ i, ch.billincrement = some i → 0 < i)
    (hd : ch.rednibble_data = some d0) :
    (∀ d1, (do_billing_data g inp ch ts).1 = some d1 → d0.lastts ≤ d1.lastts)
    ∧ (∀ d1, (rednibblebill_pause_core (some d0) ts).1 = some d1 →
        d1.lastts = d0.lastts)
    ∧ (∀ d1, (rednibblebill_resume_core rate (some d0) ts).1 = some d1 →
        d1.lastts = d0.lastts)
    ∧ (∀ d1, (rednibblebill_reset_core (some d0) ts).1 = some d1 →
        d1.lastts = ts) := by
  refine ⟨?_, ?_, ?_, ?_⟩
  · intro d1 h1
    cases hrv : ch.billrate with
    | none =>
      simp only [do_billing_data, hrv, hd, Option.some.injEq] at h1
      exact le_of_eq (by rw [h1])
    | some r0 =>
      cases hav : ch.billaccount with
      | none =>
        simp only [do_billing_data, hrv, hav, hd, Option.some.injEq] at h1
        exact le_of_eq (by rw [h1])
      | some a0 =>
        by_cases hans : ch.answered < 1
        · simp only [do_billing_data, hrv, hav, hd, if_pos hans] at h1
          split_ifs at h1 <;>
            (simp only [Option.some.injEq] at h1; exact le_of_eq (by rw [h1]))
        · by_cases hp : 0 < d0.pausets
          · simp only [do_billing_data, hrv, hav, hd, if_neg hans, if_pos hp,
              Option.some.injEq] at h1
            exact le_of_eq (by rw [h1])
          · have heq : do_billing_data g inp ch ts
                = do_billing_locked g inp ch ts r0 a0 d0 := by
              unfold do_billing_data
              rw [hrv, hav, hd]
              simp [hans, hp]
            rw [heq] at h1
            by_cases hdt : 0 ≤ ts - d0.lastts
            · obtain ⟨⟨d2, e1, e2, _, _⟩, _⟩ :=
                do_billing_locked_pos g inp ch ts r0 a0 d0 hdt
              rw [e1, Option.some.injEq] at h1
              rw [← h1, e2]
              exact do_billing_charge_lastts_mono ch.billincrement r0 d0 ts hdt hinc
            · obtain ⟨⟨d2, e1, e2, _, _⟩, _, _⟩ :=
                do_billing_locked_neg g inp ch ts r0 a0 d0 (by omega)
              rw [e1, Option.some.injEq] at h1
              rw [← h1, e2]
  · intro d1 h1
    by_cases hz : d0.pausets = 0
    · simp only [rednibblebill_pause_core, if_pos hz, Option.some.injEq] at h1
      rw [← h1]
    · simp only [rednibblebill_pause_core, if_neg hz, Option.some.injEq] at h1
      rw [← h1]
  · intro d1 h1
    by_cases hz : d0.pausets = 0
    · simp only [rednibblebill_resume_core, if_pos hz, Option.some.injEq] at h1
      rw [← h1]
    · simp only [rednibblebill_resume_core, if_neg hz, Option.some.injEq] at h1
      rw [← h1]
  · intro d1 h1
    simp only [rednibblebill_reset_core, Option.some.injEq] at h1
    rw [← h1]

/-- C4 counterexample: an increment-mode doBilling (inc = 60 s) one second
after answer bills a full prepaid block and advances lastts to answer + 60 s,
one minute past the clock; a reset one second later sets lastts to the current
clock reading 3000000, strictly below the previous value 61000000 — lastts
moved backward under an engine operation. -/
theorem c4_counterexample :
    (do_billing_data
        { nobal_amt := 0, lowbal_amt := 0, nobal_action := "hangup",
          lowbal_action := "play ding" }
        { debit_succeeds := true, pre_balance := 5, post_balance := 5,
          lowbal_exec_succeeds := true, pause_now := 9 }
        { rednibble_data := none, answered := 1000000, state_terminal := true,
          billrate := some 60, billincrement := some 60, billaccount := some "a" }
        2000000).1
      = some ⟨61000000, 60, 0, 0, false⟩
    ∧ (rednibblebill_reset_core (some ⟨61000000, 60, 0, 0, false⟩) 3000000).1
      = some ⟨3000000, 60, 0, 0, false⟩
    ∧ (3000000 : Int) < 61000000 := by
  refine ⟨?_, rfl, by decide⟩
  norm_num [do_billing_data, do_billing_locked, do_billing_post,
    do_billing_charge, chargedunits_us]

/-- Witness for C4 amended: a concrete continuous-mode doBilling advances
lastts from 1 to 5, never backward. -/
theorem c4_witness :
    (1 : Int) ≤ (⟨5, 0, 0, 0, false⟩ : RednibbleData).lastts :=
  (c4_lastts_monotone_except_reset
    { nobal_amt := 0, lowbal_amt := 0, nobal_action := "hangup",
      lowbal_action := "play ding" }
    { debit_succeeds := false, pre_balance := 5, post_balance := 5,
      lowbal_exec_succeeds := true, pause_now := 9 }
    { rednibble_data := some ⟨1, 0, 0, 0, false⟩, answered := 1,
      state_terminal := true, billrate := some 60, billincrement := none,
      billaccount := some "a" } 5 60 ⟨1, 0, 0, 0, false⟩
    (fun i h => nomatch h) rfl).1 ⟨5, 0, 0, 0, false⟩
    (by norm_num [do_billing_data, do_billing_locked, do_billing_post,
      do_billing_charge])

/-- With a non-negative rate, positive configured increment and zero pending
adjustment, the locked section never decreases total, and leaves the
adjustment at zero. -/
theorem do_billing_locked_total_mono (g : GlobalsCfg) (inp : BillingInputs)
    (ch : Channel) (ts : Int) (rate : ℚ) (acct : String) (d0 : RednibbleData)
    (hrate : 0 ≤ rate) (hinc : ∀ i, ch.billincrement = some i → 0 < i)
    (hadj0 : d0.bill_adjustments = 0) :
    ∃ d1, (do_billing_locked g inp ch ts rate acct d0).1 = some d1
      ∧ d0.total ≤ d1.total ∧ d1.bill_adjustments = 0 := by
  by_cases hdt : 0 ≤ ts - d0.lastts
  · obtain ⟨⟨d1, h1, _, h3, h4⟩, _⟩ := do_billing_locked_pos g inp ch ts rate acct d0 hdt
    have hamt : 0 ≤ (do_billing_charge ch.billincrement rate d0 ts).2 := by
      have hr6 : (0 : ℚ) ≤ rate / 1000000 / 60 := by positivity
      cases hbi : ch.billincrement with
      | none =>
        have hx : (0 : ℚ) ≤ ((ts - d0.lastts : Int) : ℚ) := by exact_mod_cast hdt
        show (0 : ℚ) ≤ rate / 1000000 / 60 * ((ts - d0.lastts : Int) : ℚ)
          - d0.bill_adjustments
        rw [hadj0, sub_zero]
        exact mul_nonneg hr6 hx
      | some i =>
        have hcu := chargedunits_us_nonneg (ts - d0.lastts) i hdt (hinc i hbi)
        have hx : (0 : ℚ) ≤ ((chargedunits_us (ts - d0.lastts) i : Int) : ℚ) := by
          exact_mod_cast hcu
        show (0 : ℚ) ≤ rate / 1000000 / 60
            * ((chargedunits_us (ts - d0.lastts) i : Int) : ℚ) - d0.bill_adjustments
        rw [hadj0, sub_zero]
        exact mul_nonneg hr6 hx
    refine ⟨d1, h1, ?_, ?_⟩
    · rw [h3]
      by_cases hs : inp.debit_succeeds = true
      · rw [if_pos hs]; linarith
      · rw [if_neg hs]
    · rw [h4]
      by_cases hs : inp.debit_succeeds = true
      · rw [if_pos hs]
      · rw [if_neg hs]; exact hadj0
  · obtain ⟨⟨d1, h1, _, h3, h4⟩, _, _⟩ :=
      do_billing_locked_neg g inp ch ts rate acct d0 (by omega)
    exact ⟨d1, h1, le_of_eq h3.symm, h4.trans hadj0⟩

/-- One do_billing call never decreases the recorded total and keeps the
pending adjustment at zero, given a non-negative rate, positive configured
increment, and zero pending adjustment on entry. -/
theorem do_billing_total_mono (g : GlobalsCfg) (inp : BillingInputs) (ch : Channel)
    (ts : Int) (rate : ℚ)
    (hr : ch.billrate = some rate) (hrate : 0 ≤ rate)
    (hinc : ∀ i, ch.billincrement = some i → 0 < i)
    (hadj : adjOf ch.rednibble_data = 0) :
    totalOf ch.rednibble_data ≤ totalOf (do_billing_data g inp ch ts).1
    ∧ adjOf (do_billing_data g inp ch ts).1 = 0 := by
  cases hav : ch.billaccount with
  | none =>
    simp only [do_billing_data, hr, hav]
    exact ⟨le_refl _, hadj⟩
  | some a0 =>
    by_cases hans : ch.answered < 1
    · simp only [do_billing_data, hr, hav, if_pos hans]
      split_ifs <;> exact ⟨le_refl _, hadj⟩
    · cases hd : ch.rednibble_data with
      | some d0 =>
        by_cases hp : 0 < d0.pausets
        · simp only [do_billing_data, hr, hav, hd, if_neg hans, if_pos hp]
          rw [hd] at hadj
          exact ⟨le_refl _, hadj⟩
        · have heq : do_billing_data g inp ch ts
              = do_billing_locked g inp ch ts rate a0 d0 := by
            unfold do_billing_data
            rw [hr, hav, hd]
            simp [hans, hp]
          rw [hd] at hadj
          obtain ⟨d1, h1, h2, h3⟩ :=
            do_billing_locked_total_mono g inp ch ts rate a0 d0 hrate hinc hadj
          rw [heq, h1]
          exact ⟨h2, h3⟩
      | none =>
        have heq : do_billing_data g inp ch ts
            = do_billing_locked g inp ch ts rate a0
                { lastts := ch.answered, total := 0, pausets := 0,
                  bill_adjustments := 0, lowbal_action_executed := false } := by
          unfold do_billing_data
          rw [hr, hav, hd]
          simp [hans]
        obtain ⟨d1, h1, h2, h3⟩ :=
          do_billing_locked_total_mono g inp ch ts rate a0
            { lastts := ch.answered, total := 0, pausets := 0,
              bill_adjustments := 0, lowbal_action_executed := false }
            hrate hinc rfl
        rw [heq, h1]
        exact ⟨h2, h3⟩

/-- C3 amended: with a non-negative rate, a positive configured increment, and
zero pending adjustment at the start (in particular whenever no pause/resume
has ever occurred on the session), the recorded total is non-decreasing across
any sequence of doBilling calls, successful or not, without intervening
pause/resume. -/
theorem c3_total_monotone (g : GlobalsCfg) (calls : List (BillingInputs × Int))
    (ch : Channel) (rate : ℚ)
    (hr : ch.billrate = some rate) (hrate : 0 ≤ rate)
    (hinc : ∀ i, ch.billincrement = some i → 0 < i)
    (hadj : adjOf ch.rednibble_data = 0) :
    totalOf ch.rednibble_data ≤ totalOf (runBillingSeq g calls ch).rednibble_data := by
  induction calls generalizing ch with
  | nil => exact le_refl _
  | cons c rest ih =>
    obtain ⟨hstep, hadj1⟩ := do_billing_total_mono g c.1 ch c.2 rate hr hrate hinc hadj
    have hrest := ih (do_billing g c.1 ch c.2).1 hr hinc hadj1
    calc totalOf ch.rednibble_data
        ≤ totalOf (do_billing g c.1 ch c.2).1.rednibble_data := hstep
      _ ≤ totalOf (runBillingSeq g rest (do_billing g c.1 ch c.2).1).rednibble_data :=
          hrest
      _ = totalOf (runBillingSeq g (c :: rest) ch).rednibble_data := rfl

/-- C3 counterexample: inc = 60 s, rate 60/min. A doBilling one second after
answer prepays a 60 s block (total 60, lastts one minute ahead); pause at 3 s,
resume at 93 s credits 90 s of pause into the adjustment; then a single
successful doBilling at 94 s, with the session NOT paused and with no pause
between it and the previous doBilling call, charges 60 - 90 = -30 and total
DROPS from 60 to 30 — totalBilled decreases while not paused. -/
theorem c3_counterexample :
    (do_billing_data
        { nobal_amt := 0, lowbal_amt := 0, nobal_action := "hangup",
          lowbal_action := "play ding" }
        { debit_succeeds := true, pre_balance := 5, post_balance := 5,
          lowbal_exec_succeeds := true, pause_now := 9 }
        { rednibble_data := none, answered := 1000000, state_terminal := true,
          billrate := some 60, billincrement := some 60, billaccount := some "a" }
        2000000).1
      = some ⟨61000000, 60, 0, 0, false⟩
    ∧ (rednibblebill_pause_core (some ⟨61000000, 60, 0, 0, false⟩) 3000000).1
      = some ⟨61000000, 60, 3000000, 0, false⟩
    ∧ (rednibblebill_resume_core 60 (some ⟨61000000, 60, 3000000, 0, false⟩)
        93000000).1
      = some ⟨61000000, 60, 0, 90, false⟩
    ∧ (⟨61000000, 60, 0, 90, false⟩ : RednibbleData).pausets = 0
    ∧ (do_billing_data
        { nobal_amt := 0, lowbal_amt := 0, nobal_action := "hangup",
          lowbal_action := "play ding" }
        { debit_succeeds := true, pre_balance := 5, post_balance := 5,
          lowbal_exec_succeeds := true, pause_now := 9 }
        { rednibble_data := some ⟨61000000, 60, 0, 90, false⟩, answered := 1000000,
          state_terminal := true, billrate := some 60, billincrement := some 60,
          billaccount := some "a" } 94000000).1
      = some ⟨121000000, 30, 0, 0, false⟩
    ∧ (30 : ℚ) < 60 := by
  refine ⟨?_, ?_, ?_, rfl, ?_, by norm_num⟩
  · norm_num [do_billing_data, do_billing_locked, do_billing_post,
      do_billing_charge, chargedunits_us]
  · norm_num [rednibblebill_pause_core]
  · norm_num [rednibblebill_resume_core]
  · norm_num [do_billing_data, do_billing_locked, do_billing_post,
      do_billing_charge, chargedunits_us]

/-- Witness for C3 amended: a one-call sequence on a fresh session with rate
60/min leaves the total non-decreasing. -/
theorem c3_witness :
    totalOf (some (⟨1, 0, 0, 0, false⟩ : RednibbleData))
      ≤ totalOf (runBillingSeq
          { nobal_amt := 0, lowbal_amt := 0, nobal_action := "hangup",
            lowbal_action := "play ding" }
          [({ debit_succeeds := true, pre_balance := 5, post_balance := 5,
              lowbal_exec_succeeds := true, pause_now := 9 }, 3)]
          { rednibble_data := some ⟨1, 0, 0, 0, false⟩, answered := 1,
            state_terminal := true, billrate := some 60, billincrement := none,
            billaccount := some "a" }).rednibble_data :=
  c3_total_monotone
    { nobal_amt := 0, lowbal_amt := 0, nobal_action := "hangup",
      lowbal_action := "play ding" }
    [({ debit_succeeds := true, pre_balance := 5, post_balance := 5,
        lowbal_exec_succeeds := true, pause_now := 9 }, 3)]
    { rednibble_data := some ⟨1, 0, 0, 0, false⟩, answered := 1,
      state_terminal := true, billrate := some 60, billincrement := none,
      billaccount := some "a" } 60
    rfl (by norm_num) (fun i h => nomatch h) rfl
